import Mathlib

/-!
Verification development for the snailtrail route optimizer
(`src/server/lib/optimizer.ts`).

The optimizer core is embedded shallowly:
* wall-clock times are `"HH:MM"` strings converted to minutes by
  `timeToMinutes`, exactly as in the source;
* JS numbers are modelled as `Int` (all arithmetic performed by the
  optimizer on durations and clocks is integer arithmetic); geographic
  coordinates are modelled as `ℚ` (every JS float is a rational) and are
  coerced to `ℝ` inside the haversine fallback;
* the travel matrix is an input parameter of the route-construction core:
  in the source it is produced by the effectful `buildTravelMatrix`
  (batched external Travel Estimator calls) before the pure greedy loop
  runs, and is read-only afterwards;
* JS `Set` iteration (insertion order) is modelled by a duplicate-free
  `List String`; JS `Map` lookup (last insertion wins) by a reversed
  `find?`; JS `x || d` on numbers (0 is falsy) by `jsOrInt`;
* `-Infinity` scores are modelled as `none : Option Int`.
-/

set_option maxHeartbeats 2000000
set_option maxRecDepth 8000

namespace Snailtrail

/-- Priority class of a stop (`"high" | "medium" | "low"`). -/
inductive Priority where
  | high
  | medium
  | low
deriving DecidableEq, Repr

/-- `timeWindow?: { open: string; close: string }` — same-day wall-clock
window, `"HH:MM"` strings as in the source. -/
structure TimeWindow where
  openT : String
  closeT : String
deriving DecidableEq, Repr

/-- `interface Stop` from optimizer.ts. -/
structure Stop where
  id : String
  name : String
  lat : ℚ
  lng : ℚ
  timeWindow : Option TimeWindow
  duration : Option Int
  priority : Option Priority
deriving Repr

/-- `interface HomeBase` from optimizer.ts. -/
structure HomeBase where
  lat : ℚ
  lng : ℚ
  address : String
deriving Repr

/-- `interface OptimizeRequest` from optimizer.ts. `Option` fields model
the optional (`?`) fields; `startTime` defaults to `"08:00"` and
`returnHome` to `false` at the top of `optimizeRoute`. -/
structure OptimizeRequest where
  stops : List Stop
  startTime : Option String
  startLocation : Option (ℚ × ℚ)
  homeBase : Option HomeBase
  returnHome : Option Bool
deriving Repr

/-- One (duration, distance) cell of the travel matrix. -/
structure MatrixEntry where
  duration : Int
  distance : Int
deriving DecidableEq, Repr

/-- `interface TravelMatrix`: nested partial map; a missing outer or inner
key (`matrix[from]?.[to]`) is `none`. -/
abbrev TravelMatrix := String → String → Option MatrixEntry

/-- `interface OptimizedStop` from optimizer.ts (`waitTime` is
`undefined` when the computed wait is not positive). -/
structure OptimizedStop where
  id : String
  name : String
  order : Nat
  arrivalTime : String
  departureTime : String
  waitTime : Option Int
  travelTimeFromPrevious : Int
deriving DecidableEq, Repr

/-- `interface OptimizeResponse` from optimizer.ts. -/
structure OptimizeResponse where
  optimizedRoute : List OptimizedStop
  totalDuration : Int
  totalDistance : Int
  totalDriveTime : Int
  totalServiceTime : Int
  estimatedEndTime : String
  feasible : Bool
  warnings : Option (List String)
  returnToHomeTime : Option Int
deriving DecidableEq, Repr

/-- Split a character list at every `':'` (the char-level model of
`time.split(":")`, written structurally so that it reduces in the
kernel). -/
def splitOnColon : List Char → List Char → List (List Char)
  | [], cur => [cur.reverse]
  | c :: rest, cur =>
    if c = ':' then cur.reverse :: splitOnColon rest []
    else splitOnColon rest (c :: cur)

/-- Parse a non-empty all-digit character list as a natural number (the
behaviour of JS `Number(...)` on the `"HH"`/`"MM"` pieces that occur
here; anything else would be NaN in JS and is mapped to `none`). -/
def parseNatDigits (l : List Char) : Option Nat :=
  if l ≠ [] ∧ l.all (fun c => c.isDigit) then
    some (l.foldl (fun n c => n * 10 + (c.toNat - Char.toNat '0')) 0)
  else none

/-- `timeToMinutes`: `time.split(":").map(Number)` then `hours*60 + mins`.
Only well-formed `"HH:MM"` strings occur in this development (a malformed
string yields NaN in JS, out of scope here). -/
def timeToMinutes (time : String) : Int :=
  match (splitOnColon time.data []).map
      (fun cs => ((parseNatDigits cs).getD 0 : Int)) with
  | [hours, mins] => hours * 60 + mins
  | _ => 0

/-- Left-pad a digit string to two characters (`padStart(2, "0")`). -/
def pad2 (s : String) : String :=
  if s.length < 2 then "0" ++ s else s

/-- `minutesToTime`: `h = Math.floor(minutes/60) % 24`,
`m = Math.round(minutes % 60)` (the round is the identity on integers).
`ediv`/`emod` agree with JS floor-division/remainder on the non-negative
clock values produced by the optimizer. -/
def minutesToTime (minutes : Int) : String :=
  let h := (minutes.ediv 60).emod 24
  let m := minutes.emod 60
  pad2 (toString h.toNat) ++ ":" ++ pad2 (toString m.toNat)

/-- `getPriorityWeight`: high 3, medium 2, low 1, default (absent) 2. -/
def getPriorityWeight : Option Priority → Int
  | some Priority.high => 3
  | some Priority.medium => 2
  | some Priority.low => 1
  | none => 2

/-- JS `x || d` on an optional number: `undefined` and `0` are falsy and
yield the default `d`; any other number passes through. -/
def jsOrInt (x : Option Int) (d : Int) : Int :=
  match x with
  | none => d
  | some v => if v = 0 then d else v

/-- `matrix[a]?.[b]?.duration || 30`: missing entry or zero duration give
the 30-minute default. -/
def matrixDuration (m : TravelMatrix) (a b : String) : Int :=
  match m a b with
  | none => 30
  | some e => if e.duration = 0 then 30 else e.duration

/-- `matrix[a]?.[b]?.distance || 0`: missing entry gives 0 (a stored 0
also gives 0). -/
def matrixDistance (m : TravelMatrix) (a b : String) : Int :=
  match m a b with
  | none => 0
  | some e => e.distance

/-- Result of `isFeasible` (`{ feasible, waitTime }`). -/
structure Feasibility where
  feasible : Bool
  waitTime : Int
deriving DecidableEq, Repr

/-- `isFeasible` from optimizer.ts: no window → always feasible, no wait;
arrival strictly after close → infeasible; arrival before open → wait
until open; otherwise feasible with zero wait. -/
def isFeasible (stop : Stop) (arrivalTime : Int) : Feasibility :=
  match stop.timeWindow with
  | none => { feasible := true, waitTime := 0 }
  | some tw =>
    let openM := timeToMinutes tw.openT
    let closeM := timeToMinutes tw.closeT
    if arrivalTime > closeM then
      { feasible := false, waitTime := 0 }
    else
      { feasible := true,
        waitTime := if arrivalTime < openM then openM - arrivalTime else 0 }

/-- `scoreCandidate` from optimizer.ts. `none` models the `-Infinity`
returned for an infeasible candidate; otherwise the score is the negated
cost `travelTime + waitTime`, minus 50 when the window's slack at the
(pre-wait) arrival is under 60 minutes, minus `priorityWeight * 30`.
`remainingStops` is a parameter of the source function but is unused. -/
def scoreCandidate (stop : Stop) (travelTime : Int) (currentTime : Int)
    (remainingStops : List Stop) : Option Int :=
  let arrival := currentTime + travelTime
  let f := isFeasible stop arrival
  if f.feasible = false then
    none
  else
    let score0 := travelTime + f.waitTime
    let score1 :=
      match stop.timeWindow with
      | some tw =>
        let closeM := timeToMinutes tw.closeT
        let slack := closeM - arrival
        if slack < 60 then score0 - 50 else score0
      | none => score0
    let score2 := score1 - getPriorityWeight stop.priority * 30
    some (-score2)

/-- JS `score > bestScore` where either side may be `-Infinity` (none). -/
def scoreGt : Option Int → Option Int → Bool
  | none, _ => false
  | some _, none => true
  | some x, some y => decide (x > y)

/-- Placeholder stop used as the default of total lookups; every lookup
performed by the optimizer is on an id drawn from the input stops, so the
placeholder is never actually selected (in TS this is the `!` non-null
assertion on `stopMap.get(id)`). -/
def dummyStop : Stop :=
  { id := "", name := "", lat := 0, lng := 0,
    timeWindow := none, duration := none, priority := none }

/-- `new Map(stops.map(s => [s.id, s]))` lookup: for duplicate ids the
last insertion wins, hence the `find?` over the reversed list. -/
def stopMapGet (stops : List Stop) (id : String) : Option Stop :=
  stops.reverse.find? (fun s => s.id == id)

/-- Helper for `dedupFirst` (keeps the first occurrence of each element,
in order — the contents of a JS `Set` built by repeated insertion). -/
def dedupAux : List String → List String → List String
  | [], acc => acc
  | x :: xs, acc =>
    if x ∈ acc then dedupAux xs acc else dedupAux xs (acc ++ [x])

/-- `new Set(l)` as an insertion-ordered duplicate-free list. -/
def dedupFirst (l : List String) : List String :=
  dedupAux l []

/-- One line of the route as built by the greedy loop, with arrival and
departure kept as unwrapped minutes since midnight; `optimizeRoute`
formats them into `OptimizedStop` wall-clock strings via
`minutesToTime`. -/
structure ScheduledStop where
  id : String
  name : String
  order : Nat
  arrivalMin : Int
  departureMin : Int
  waitTime : Option Int
  travelTimeFromPrevious : Int
deriving DecidableEq, Repr

/-- `OptimizedStop` produced from a `ScheduledStop` by applying the 24h
display formatting (`minutesToTime`) to the raw clock values, exactly as
the `route.push({...})` in the source does. -/
def toOptimizedStop (r : ScheduledStop) : OptimizedStop :=
  { id := r.id, name := r.name, order := r.order,
    arrivalTime := minutesToTime r.arrivalMin,
    departureTime := minutesToTime r.departureMin,
    waitTime := r.waitTime,
    travelTimeFromPrevious := r.travelTimeFromPrevious }

/-- The mutable locals of the `while` loop in `optimizeRoute`, threaded
explicitly. -/
structure LoopState where
  unvisited : List String
  currentTime : Int
  currentId : Option String
  route : List ScheduledStop
  totalDistance : Int
  totalDriveTime : Int
  totalServiceTime : Int
  warnings : List String
  feasible : Bool
deriving Repr

/-- The `bestId` / `bestScore` / `bestTravel` accumulator of the
candidate-selection `for` loop (`bestScore = none` is `-Infinity`). -/
structure Best where
  bestId : Option String
  bestScore : Option Int
  bestTravel : Int
deriving Repr

/-- Travel cost of a candidate: 0 when there is no current position,
otherwise `matrix[cid]?.[id]?.duration || 30`. -/
def candidateTravel (m : TravelMatrix) (cid : Option String) (id : String) : Int :=
  match cid with
  | some c => matrixDuration m c id
  | none => 0

/-- One iteration of the candidate `for` loop: the accumulator is
replaced exactly when `score > bestScore`. (In the no-current-position
branch the source leaves `bestTravel` untouched at 0; storing the travel
value 0 is identical.) -/
def considerCandidate (m : TravelMatrix) (stops : List Stop)
    (cid : Option String) (currentTime : Int) (remaining : List Stop)
    (b : Best) (id : String) : Best :=
  let travel := candidateTravel m cid id
  let stop := (stopMapGet stops id).getD dummyStop
  let sc := scoreCandidate stop travel currentTime remaining
  if scoreGt sc b.bestScore then
    { bestId := some id, bestScore := sc, bestTravel := travel }
  else b

/-- The candidate-selection `for` loop over the unvisited set (insertion
order), starting from `bestId = null, bestScore = -Infinity,
bestTravel = 0`. `remaining` is the `[...unvisited].map(i =>
stopMap.get(i)!)` argument (unused by `scoreCandidate`). -/
def selectBest (m : TravelMatrix) (stops : List Stop) (cid : Option String)
    (currentTime : Int) (unvisited : List String) : Best :=
  unvisited.foldl
    (considerCandidate m stops cid currentTime
      (unvisited.map (fun i => (stopMapGet stops i).getD dummyStop)))
    { bestId := none, bestScore := none, bestTravel := 0 }

/-- Whether the selection loop found a feasible candidate (`bestId`
non-null). -/
def stepFound (m : TravelMatrix) (stops : List Stop) (s : LoopState) : Bool :=
  (selectBest m stops s.currentId s.currentTime s.unvisited).bestId.isSome

/-- The id scheduled by this iteration: the selection loop's winner, or —
when every candidate scored `-Infinity` — the fallback
`[...unvisited][0]`. -/
def stepChosen (m : TravelMatrix) (stops : List Stop) (s : LoopState) : String :=
  (selectBest m stops s.currentId s.currentTime s.unvisited).bestId.getD
    (s.unvisited.headD "")

/-- `bestTravel` after the (possible) infeasible-fallback reassignment
`bestTravel = currentId ? (matrix[currentId]?.[bestId]?.duration || 30) : 0`. -/
def stepBestTravel (m : TravelMatrix) (stops : List Stop) (s : LoopState) : Int :=
  match (selectBest m stops s.currentId s.currentTime s.unvisited).bestId with
  | some _ => (selectBest m stops s.currentId s.currentTime s.unvisited).bestTravel
  | none =>
    match s.currentId with
    | some cid => matrixDuration m cid (s.unvisited.headD "")
    | none => 0

/-- `const travelTime = currentId ? bestTravel : 0`. -/
def stepTravelTime (m : TravelMatrix) (stops : List Stop) (s : LoopState) : Int :=
  match s.currentId with
  | some _ => stepBestTravel m stops s
  | none => 0

/-- `const stop = stopMap.get(bestId)!`. -/
def stepStop (m : TravelMatrix) (stops : List Stop) (s : LoopState) : Stop :=
  (stopMapGet stops (stepChosen m stops s)).getD dummyStop

/-- `const arrival = currentTime + travelTime`. -/
def stepArrival (m : TravelMatrix) (stops : List Stop) (s : LoopState) : Int :=
  s.currentTime + stepTravelTime m stops s

/-- The wait recorded for the chosen stop
(`isFeasible(stop, arrival).waitTime`). -/
def stepWait (m : TravelMatrix) (stops : List Stop) (s : LoopState) : Int :=
  (isFeasible (stepStop m stops s) (stepArrival m stops s)).waitTime

/-- `const actualArrival = arrival + (waitTime || 0)` (the wait is a
plain number here, so `|| 0` is the identity). -/
def stepActualArrival (m : TravelMatrix) (stops : List Stop) (s : LoopState) : Int :=
  stepArrival m stops s + stepWait m stops s

/-- `const duration = stop.duration || 30`. -/
def stepDuration (m : TravelMatrix) (stops : List Stop) (s : LoopState) : Int :=
  jsOrInt (stepStop m stops s).duration 30

/-- `const departure = actualArrival + duration`. -/
def stepDeparture (m : TravelMatrix) (stops : List Stop) (s : LoopState) : Int :=
  stepActualArrival m stops s + stepDuration m stops s

/-- The `route.push({...})` record of this iteration (raw clock values;
see `toOptimizedStop`). -/
def stepRecord (m : TravelMatrix) (stops : List Stop) (s : LoopState) : ScheduledStop :=
  { id := (stepStop m stops s).id,
    name := (stepStop m stops s).name,
    order := s.route.length + 1,
    arrivalMin := stepActualArrival m stops s,
    departureMin := stepDeparture m stops s,
    waitTime := if stepWait m stops s > 0 then some (stepWait m stops s) else none,
    travelTimeFromPrevious := stepTravelTime m stops s }

/-- Warnings after this iteration: the no-feasible-candidate fallback
warning, then the explicit re-check warning when the chosen stop cannot
be reached before its close time. -/
def stepWarnings (m : TravelMatrix) (stops : List Stop) (s : LoopState) : List String :=
  let w1 :=
    if stepFound m stops s then s.warnings
    else s.warnings ++
      ["Stop " ++ stepChosen m stops s ++ " may not be reachable within time window"]
  if (isFeasible (stepStop m stops s) (stepArrival m stops s)).feasible then w1
  else w1 ++ ["Cannot reach " ++ (stepStop m stops s).name ++ " before close time"]

/-- Feasibility flag after this iteration (cleared by either the
no-feasible-candidate fallback or the explicit re-check). -/
def stepFeasible (m : TravelMatrix) (stops : List Stop) (s : LoopState) : Bool :=
  let f1 := if stepFound m stops s then s.feasible else false
  if (isFeasible (stepStop m stops s) (stepArrival m stops s)).feasible then f1
  else false

/-- `totalDistance += currentId ? (matrix[currentId]?.[bestId]?.distance || 0) : 0`. -/
def stepDistance (m : TravelMatrix) (stops : List Stop) (s : LoopState) : Int :=
  match s.currentId with
  | some cid => matrixDistance m cid (stepChosen m stops s)
  | none => 0

/-- One full iteration of the `while (unvisited.size > 0)` loop body. -/
def stepOnce (m : TravelMatrix) (stops : List Stop) (s : LoopState) : LoopState :=
  { unvisited := s.unvisited.filter (fun x => x ≠ stepChosen m stops s),
    currentTime := stepDeparture m stops s,
    currentId := some (stepChosen m stops s),
    route := s.route ++ [stepRecord m stops s],
    totalDistance := s.totalDistance + stepDistance m stops s,
    totalDriveTime := s.totalDriveTime + stepTravelTime m stops s,
    totalServiceTime := s.totalServiceTime + stepDuration m stops s,
    warnings := stepWarnings m stops s,
    feasible := stepFeasible m stops s }

/-- The `while (unvisited.size > 0)` loop. Each iteration removes exactly
one element from the duplicate-free unvisited set, so running with fuel
`unvisited.length` reaches the empty set (proved below). -/
def runLoop (m : TravelMatrix) (stops : List Stop) : Nat → LoopState → LoopState
  | 0, s => s
  | n + 1, s =>
    if s.unvisited = [] then s else runLoop m stops n (stepOnce m stops s)

/-- The `sortedByUrgency` comparator as a boolean "a may come before b"
relation: higher `getPriorityWeight` first, then earlier window close
(no window treated as closing at 1440). This is `cmp(a,b) <= 0` for the
source comparator. -/
def urgencyLE (a b : Stop) : Bool :=
  let aClose := match a.timeWindow with
    | some tw => timeToMinutes tw.closeT
    | none => 1440
  let bClose := match b.timeWindow with
    | some tw => timeToMinutes tw.closeT
    | none => 1440
  let aPrio := getPriorityWeight a.priority
  let bPrio := getPriorityWeight b.priority
  if aPrio = bPrio then decide (aClose ≤ bClose) else decide (bPrio ≤ aPrio)

/-- Insert a stop after every already-placed stop that may come before it
(stable insertion). -/
def insertStable (x : Stop) : List Stop → List Stop
  | [] => [x]
  | y :: ys => if urgencyLE y x then y :: insertStable x ys else x :: y :: ys

/-- `[...stops].sort(comparator)`: JS `Array.prototype.sort` is stable
(ES2019+) and `urgencyLE` is a total preorder, so a stable insertion sort
produces the same list. -/
def sortedByUrgency (stops : List Stop) : List Stop :=
  stops.foldl (fun acc x => insertStable x acc) []

/-- `firstCandidate.priority === "high"`. -/
def isHighPriority (c : Stop) : Bool :=
  match c.priority with
  | some Priority.high => true
  | _ => false

/-- The forced-first-stop test: priority `"high"`, or a time window
closing within 240 minutes of the start. -/
def isForcedFirst (c : Stop) (currentTime : Int) : Bool :=
  isHighPriority c ||
    (match c.timeWindow with
     | some tw => decide (timeToMinutes tw.closeT < currentTime + 240)
     | none => false)

/-- The initial `currentId`: the most urgent stop's id when the
forced-first rule fires, else `null`. (`sortedByUrgency[0]` exists since
this runs only for a non-empty stop list.) -/
def forcedFirstId (stops : List Stop) (currentTime : Int) : Option String :=
  let firstCandidate := (sortedByUrgency stops).headD dummyStop
  if isForcedFirst firstCandidate currentTime then some firstCandidate.id
  else none

/-- The loop state just before the first `while` iteration. -/
def initialState (stops : List Stop) (startTime : String) : LoopState :=
  let currentTime := timeToMinutes startTime
  { unvisited := dedupFirst (stops.map Stop.id),
    currentTime := currentTime,
    currentId := forcedFirstId stops currentTime,
    route := [], totalDistance := 0, totalDriveTime := 0,
    totalServiceTime := 0, warnings := [], feasible := true }

/-- The greedy construction: initial state, then the `while` loop run to
completion (fuel = size of the unvisited set). -/
def runConstruction (m : TravelMatrix) (stops : List Stop)
    (startTime : String) : LoopState :=
  let s0 := initialState stops startTime
  runLoop m stops s0.unvisited.length s0

/-- JS `Math.atan2 (y, x)` over the idealized reals. -/
noncomputable def jsAtan2 (y x : ℝ) : ℝ :=
  if 0 < x then Real.arctan (y / x)
  else if x < 0 then
    (if 0 ≤ y then Real.arctan (y / x) + Real.pi
     else Real.arctan (y / x) - Real.pi)
  else
    (if 0 < y then Real.pi / 2 else if y < 0 then -(Real.pi / 2) else 0)

/-- `estimateDistance` from optimizer.ts — the haversine fallback used
when the traffic API is unavailable: great-circle distance on a sphere of
radius `R = 6371` km, converted to minutes at 50 km/h and rounded to the
nearest minute (`Math.round x = ⌊x + 1/2⌋ = round x`). -/
noncomputable def estimateDistance (f t : Stop) : Int :=
  let R : ℝ := 6371
  let dLat : ℝ := ((t.lat : ℝ) - (f.lat : ℝ)) * Real.pi / 180
  let dLng : ℝ := ((t.lng : ℝ) - (f.lng : ℝ)) * Real.pi / 180
  let a : ℝ :=
    Real.sin (dLat / 2) ^ 2 +
      Real.cos ((f.lat : ℝ) * Real.pi / 180) *
        Real.cos ((t.lat : ℝ) * Real.pi / 180) * Real.sin (dLng / 2) ^ 2
  let c : ℝ := 2 * jsAtan2 (Real.sqrt a) (Real.sqrt (1 - a))
  let km : ℝ := R * c
  round (km / 50 * 60)

/-- The virtual stop handed to `estimateDistance` in the return-home
fallback (`{ id: "__home__", name: "Home", lat, lng }`). -/
def homeAsStop (hb : HomeBase) : Stop :=
  { id := "__home__", name := "Home", lat := hb.lat, lng := hb.lng,
    timeWindow := none, duration := none, priority := none }

/-- `matrix[currentId]?.["__home__"]?.duration || estimateDistance(lastStop, home)`:
a missing or zero matrix duration falls back to the geometric estimate. -/
noncomputable def returnHomeDuration (m : TravelMatrix) (cid : String)
    (lastStop : Stop) (hb : HomeBase) : Int :=
  match m cid "__home__" with
  | some e =>
    if e.duration = 0 then estimateDistance lastStop (homeAsStop hb)
    else e.duration
  | none => estimateDistance lastStop (homeAsStop hb)

/-- The `if (returnHome && homeBase && currentId)` block: applies the
return-home leg to drive time, clock and distance, and produces
`returnToHomeTime`. (`currentId` is a JS string here; the empty string is
falsy, hence the explicit test.) -/
noncomputable def applyReturnHome (m : TravelMatrix) (stops : List Stop)
    (returnHome : Bool) (homeBase : Option HomeBase) (s : LoopState) :
    LoopState × Option Int :=
  match returnHome, homeBase, s.currentId with
  | true, some hb, some cid =>
    if cid = "" then (s, none)
    else
      match stopMapGet stops cid with
      | some lastStop =>
        let homeReturn := returnHomeDuration m cid lastStop hb
        ({ s with
            totalDriveTime := s.totalDriveTime + homeReturn,
            currentTime := s.currentTime + homeReturn,
            totalDistance := s.totalDistance + matrixDistance m cid "__home__" },
          some homeReturn)
      | none => (s, none)
  | _, _, _ => (s, none)

/-- `optimizeRoute` from optimizer.ts, as a pure function of the travel
matrix (built upfront by the effectful `buildTravelMatrix` in the source;
the `allStops` / `matrixStops` locals only feed that construction) and
the request. -/
noncomputable def optimizeRoute (matrix : TravelMatrix)
    (request : OptimizeRequest) : OptimizeResponse :=
  let stops := request.stops
  let startTime := request.startTime.getD "08:00"
  let returnHome := request.returnHome.getD false
  if stops.length = 0 then
    { optimizedRoute := [], totalDuration := 0, totalDistance := 0,
      totalDriveTime := 0, totalServiceTime := 0,
      estimatedEndTime := startTime, feasible := true,
      warnings := none, returnToHomeTime := none }
  else
    let s1 := runConstruction matrix stops startTime
    let pr := applyReturnHome matrix stops returnHome request.homeBase s1
    let s2 := pr.1
    { optimizedRoute := s2.route.map toOptimizedStop,
      totalDuration := s2.currentTime - timeToMinutes startTime,
      totalDistance := s2.totalDistance,
      totalDriveTime := s2.totalDriveTime,
      totalServiceTime := s2.totalServiceTime,
      estimatedEndTime := minutesToTime s2.currentTime,
      feasible := s2.feasible,
      warnings := if s2.warnings.length > 0 then some s2.warnings else none,
      returnToHomeTime := pr.2 }

/-! ### Basic lemmas about the pure helpers -/

theorem isFeasible_wait_nonneg (stop : Stop) (t : Int) :
    0 ≤ (isFeasible stop t).waitTime := by
  unfold isFeasible
  cases stop.timeWindow with
  | none => simp
  | some tw =>
    simp only
    split
    · simp
    · simp only
      split <;> omega

theorem matrixDuration_nonneg (m : TravelMatrix)
    (hm : ∀ a b e, m a b = some e → 0 ≤ e.duration) (a b : String) :
    0 ≤ matrixDuration m a b := by
  unfold matrixDuration
  split
  · norm_num
  · rename_i e heq
    have := hm a b e heq
    split <;> omega

theorem matrixDuration_of_none (m : TravelMatrix) {a b : String}
    (h : m a b = none) : matrixDuration m a b = 30 := by
  simp [matrixDuration, h]

theorem matrixDuration_never_zero (m : TravelMatrix) (a b : String) :
    matrixDuration m a b ≠ 0 := by
  unfold matrixDuration
  split
  · norm_num
  · split
    · norm_num
    · rename_i h
      exact h

/-! ### The candidate-selection fold -/

theorem foldl_consider_inv (m : TravelMatrix) (stops : List Stop)
    (cid : Option String) (t : Int) (rem : List Stop) (P : Best → Prop)
    (l : List String) :
    (∀ b id, id ∈ l → P b → P (considerCandidate m stops cid t rem b id)) →
    ∀ b, P b → P (l.foldl (considerCandidate m stops cid t rem) b) := by
  induction l with
  | nil => intro _ b hb; exact hb
  | cons x xs ih =>
    intro hstep b hb
    exact ih (fun b' id' h' => hstep b' id' (List.mem_cons_of_mem _ h')) _
      (hstep b x (List.mem_cons_self x xs) hb)

theorem considerCandidate_bestId (m : TravelMatrix) (stops : List Stop)
    (cid : Option String) (t : Int) (rem : List Stop) (b : Best) (id : String) :
    (considerCandidate m stops cid t rem b id).bestId = b.bestId ∨
    (considerCandidate m stops cid t rem b id).bestId = some id := by
  unfold considerCandidate
  dsimp only
  split
  · right; rfl
  · left; rfl

theorem selectBest_bestId_mem (m : TravelMatrix) (stops : List Stop)
    (cid : Option String) (t : Int) (u : List String) {b : String}
    (h : (selectBest m stops cid t u).bestId = some b) : b ∈ u := by
  unfold selectBest at h
  refine foldl_consider_inv m stops cid t _
    (fun best => ∀ x, best.bestId = some x → x ∈ u) u ?_ _ (by simp) b h
  intro b' id' hid' hb' x hx
  rcases considerCandidate_bestId m stops cid t
      (u.map (fun i => (stopMapGet stops i).getD dummyStop)) b' id' with hc | hc
  · rw [hc] at hx
    exact hb' x hx
  · rw [hc] at hx
    cases hx
    exact hid'

theorem considerCandidate_bestTravel (m : TravelMatrix) (stops : List Stop)
    (cid : Option String) (t : Int) (rem : List Stop) (b : Best) (id : String) :
    (considerCandidate m stops cid t rem b id).bestTravel = b.bestTravel ∨
    (considerCandidate m stops cid t rem b id).bestTravel = 0 ∨
    ∃ c, cid = some c ∧
      (considerCandidate m stops cid t rem b id).bestTravel = matrixDuration m c id := by
  unfold considerCandidate
  cases cid with
  | none =>
    dsimp only [candidateTravel]
    split
    · right; left; rfl
    · left; rfl
  | some c =>
    dsimp only [candidateTravel]
    split
    · right; right
      exact ⟨c, rfl, rfl⟩
    · left; rfl

theorem selectBest_bestTravel_nonneg (m : TravelMatrix) (stops : List Stop)
    (cid : Option String) (t : Int) (u : List String)
    (hm : ∀ a b e, m a b = some e → 0 ≤ e.duration) :
    0 ≤ (selectBest m stops cid t u).bestTravel := by
  unfold selectBest
  refine foldl_consider_inv m stops cid t _
    (fun best => 0 ≤ best.bestTravel) u ?_ _ (by norm_num)
  intro b' id' _ hb'
  rcases considerCandidate_bestTravel m stops cid t
      (u.map (fun i => (stopMapGet stops i).getD dummyStop)) b' id' with hc | hc | ⟨c, _, hc⟩
  · omega
  · omega
  · rw [hc]; exact matrixDuration_nonneg m hm c id'

theorem selectBest_bestTravel_default (m : TravelMatrix) (stops : List Stop)
    (cid : Option String) (t : Int) (u : List String)
    (hm : ∀ a b, m a b = none) :
    (selectBest m stops cid t u).bestTravel = 0 ∨
    (selectBest m stops cid t u).bestTravel = 30 := by
  unfold selectBest
  refine foldl_consider_inv m stops cid t _
    (fun best => best.bestTravel = 0 ∨ best.bestTravel = 30) u ?_ _ (by norm_num)
  intro b' id' _ hb'
  rcases considerCandidate_bestTravel m stops cid t
      (u.map (fun i => (stopMapGet stops i).getD dummyStop)) b' id' with hc | hc | ⟨c, _, hc⟩
  · omega
  · omega
  · rw [hc, matrixDuration_of_none m (hm c id')]
    right; rfl

/-! ### The chosen stop of one iteration -/

theorem headD_mem {l : List String} (h : l ≠ []) (d : String) : l.headD d ∈ l := by
  cases l with
  | nil => exact absurd rfl h
  | cons x xs => exact List.mem_cons_self x xs

theorem stepChosen_mem (m : TravelMatrix) (stops : List Stop) (s : LoopState)
    (h : s.unvisited ≠ []) : stepChosen m stops s ∈ s.unvisited := by
  unfold stepChosen
  cases hb : (selectBest m stops s.currentId s.currentTime s.unvisited).bestId with
  | some b =>
    simpa using selectBest_bestId_mem m stops s.currentId s.currentTime s.unvisited hb
  | none =>
    simpa using headD_mem h ""

theorem length_filter_ne_lt {c : String} {l : List String} (hc : c ∈ l) :
    (l.filter (fun x => x ≠ c)).length < l.length := by
  induction l with
  | nil => cases hc
  | cons x xs ih =>
    rw [List.filter_cons]
    by_cases hx : x = c
    · rw [if_neg (by simp [hx])]
      have hle := List.length_filter_le (fun x => decide (x ≠ c)) xs
      simp only [List.length_cons]
      omega
    · rcases List.mem_cons.mp hc with hcx | hcs
      · exact absurd hcx.symm hx
      · have hlt := ih hcs
        rw [if_pos (by simp [hx])]
        simp only [List.length_cons]
        omega

theorem cons_filter_ne_perm {c : String} {u : List String} (hc : c ∈ u)
    (hu : u.Nodup) : (c :: u.filter (fun x => x ≠ c)).Perm u := by
  induction u with
  | nil => cases hc
  | cons x xs ih =>
    rw [List.filter_cons]
    rcases List.mem_cons.mp hc with hcx | hcs
    · subst hcx
      rw [if_neg (by simp)]
      have hnotin : c ∉ xs := (List.nodup_cons.mp hu).1
      have hfix : xs.filter (fun x => x ≠ c) = xs :=
        List.filter_eq_self.mpr (fun a ha => by
          simp only [decide_eq_true_eq]
          exact fun hac => hnotin (hac ▸ ha))
      rw [hfix]
    · have hx : x ≠ c := fun hxc => ((List.nodup_cons.mp hu).1) (hxc ▸ hcs)
      rw [if_pos (by simp [hx])]
      have hperm := ih hcs (List.nodup_cons.mp hu).2
      exact (List.Perm.swap x c _).trans (hperm.cons x)

/-! ### The while loop -/

theorem runLoop_preserves (m : TravelMatrix) (stops : List Stop)
    (P : LoopState → Prop)
    (hstep : ∀ s, s.unvisited ≠ [] → P s → P (stepOnce m stops s)) :
    ∀ n s, P s → P (runLoop m stops n s) := by
  intro n
  induction n with
  | zero => intro s hs; exact hs
  | succ k ih =>
    intro s hs
    unfold runLoop
    split
    · exact hs
    · rename_i hne
      exact ih _ (hstep s hne hs)

theorem stepOnce_unvisited (m : TravelMatrix) (stops : List Stop) (s : LoopState) :
    (stepOnce m stops s).unvisited =
      s.unvisited.filter (fun x => x ≠ stepChosen m stops s) := rfl

theorem stepOnce_route (m : TravelMatrix) (stops : List Stop) (s : LoopState) :
    (stepOnce m stops s).route = s.route ++ [stepRecord m stops s] := rfl

theorem stepOnce_currentTime (m : TravelMatrix) (stops : List Stop) (s : LoopState) :
    (stepOnce m stops s).currentTime = stepDeparture m stops s := rfl

theorem runLoop_complete (m : TravelMatrix) (stops : List Stop) :
    ∀ n s, s.unvisited.length ≤ n → (runLoop m stops n s).unvisited = [] := by
  intro n
  induction n with
  | zero =>
    intro s h
    have h0 : s.unvisited = [] := List.eq_nil_of_length_eq_zero (Nat.le_zero.mp h)
    simpa [runLoop] using h0
  | succ k ih =>
    intro s h
    unfold runLoop
    split
    · assumption
    · rename_i hne
      apply ih
      have hlt : (stepOnce m stops s).unvisited.length < s.unvisited.length := by
        rw [stepOnce_unvisited]
        exact length_filter_ne_lt (stepChosen_mem m stops s hne)
      omega

/-! ### Deduplication (JS Set) -/

theorem dedupAux_nodup : ∀ (l acc : List String), acc.Nodup → (dedupAux l acc).Nodup := by
  intro l
  induction l with
  | nil => intro acc h; exact h
  | cons x xs ih =>
    intro acc h
    unfold dedupAux
    split
    · exact ih acc h
    · rename_i hx
      refine ih _ ?_
      simp [List.nodup_append, h, hx]

theorem dedupFirst_nodup (l : List String) : (dedupFirst l).Nodup :=
  dedupAux_nodup l [] List.nodup_nil

theorem dedupAux_eq_append : ∀ (l acc : List String), l.Nodup →
    (∀ x ∈ l, x ∉ acc) → dedupAux l acc = acc ++ l := by
  intro l
  induction l with
  | nil => intro acc _ _; simp [dedupAux]
  | cons x xs ih =>
    intro acc hnd hdisj
    unfold dedupAux
    split
    · rename_i hx
      exact absurd hx (hdisj x (List.mem_cons_self x xs))
    · rw [ih (acc ++ [x]) (List.nodup_cons.mp hnd).2]
      · simp
      · intro y hy
        simp only [List.mem_append, List.mem_singleton]
        rintro (hya | hyx)
        · exact hdisj y (List.mem_cons_of_mem _ hy) hya
        · exact (List.nodup_cons.mp hnd).1 (hyx ▸ hy)

theorem dedupFirst_eq_self {l : List String} (h : l.Nodup) : dedupFirst l = l := by
  unfold dedupFirst
  rw [dedupAux_eq_append l [] h (by simp)]
  simp

theorem dedupAux_length_ge : ∀ (l acc : List String),
    acc.length ≤ (dedupAux l acc).length := by
  intro l
  induction l with
  | nil => intro acc; simp [dedupAux]
  | cons x xs ih =>
    intro acc
    unfold dedupAux
    split
    · exact ih acc
    · have := ih (acc ++ [x])
      simp only [List.length_append, List.length_singleton] at this
      omega

theorem dedupFirst_ne_nil {l : List String} (h : l ≠ []) : dedupFirst l ≠ [] := by
  cases l with
  | nil => exact absurd rfl h
  | cons x xs =>
    unfold dedupFirst dedupAux
    simp only [List.not_mem_nil, if_false, List.nil_append]
    intro hcon
    have := dedupAux_length_ge xs [x]
    rw [hcon] at this
    simp at this

/-! ### The stop map (JS Map, last insertion wins) -/

theorem stopMapGet_id {stops : List Stop} {c : String} {s : Stop}
    (h : stopMapGet stops c = some s) : s.id = c := by
  have := List.find?_some h
  simpa using this

theorem stopMapGet_mem {stops : List Stop} {c : String} {s : Stop}
    (h : stopMapGet stops c = some s) : s ∈ stops := by
  have := List.mem_of_find?_eq_some h
  simpa using this

theorem stopMapGet_isSome {stops : List Stop} {c : String}
    (h : c ∈ stops.map Stop.id) : ∃ s, stopMapGet stops c = some s := by
  rcases List.mem_map.mp h with ⟨s, hs, hid⟩
  cases hfind : stopMapGet stops c with
  | some sf => exact ⟨sf, rfl⟩
  | none =>
    unfold stopMapGet at hfind
    rw [List.find?_eq_none] at hfind
    exact absurd (by simpa using hid) (by simpa using hfind s (List.mem_reverse.mpr hs))

/-! ### Step-level facts -/

theorem stepWait_nonneg (m : TravelMatrix) (stops : List Stop) (s : LoopState) :
    0 ≤ stepWait m stops s :=
  isFeasible_wait_nonneg _ _

theorem stepTravelTime_nonneg (m : TravelMatrix) (stops : List Stop) (s : LoopState)
    (hm : ∀ a b e, m a b = some e → 0 ≤ e.duration) :
    0 ≤ stepTravelTime m stops s := by
  unfold stepTravelTime stepBestTravel
  cases s.currentId with
  | none => norm_num
  | some cid =>
    dsimp only
    cases (selectBest m stops (some cid) s.currentTime s.unvisited).bestId with
    | some b => exact selectBest_bestTravel_nonneg m stops (some cid) s.currentTime s.unvisited hm
    | none => exact matrixDuration_nonneg m hm cid (s.unvisited.headD "")

theorem stepTravelTime_default (m : TravelMatrix) (stops : List Stop) (s : LoopState)
    (hm : ∀ a b, m a b = none) :
    stepTravelTime m stops s = 0 ∨ stepTravelTime m stops s = 30 := by
  unfold stepTravelTime stepBestTravel
  cases s.currentId with
  | none => left; rfl
  | some cid =>
    dsimp only
    cases (selectBest m stops (some cid) s.currentTime s.unvisited).bestId with
    | some b => exact selectBest_bestTravel_default m stops (some cid) s.currentTime s.unvisited hm
    | none =>
      rw [matrixDuration_of_none m (hm cid (s.unvisited.headD ""))]
      right; rfl

theorem applyReturnHome_route (m : TravelMatrix) (stops : List Stop)
    (rh : Bool) (hb : Option HomeBase) (s : LoopState) :
    (applyReturnHome m stops rh hb s).1.route = s.route := by
  unfold applyReturnHome
  cases rh with
  | false => rfl
  | true =>
    cases hb with
    | none => rfl
    | some hb2 =>
      cases hcid : s.currentId with
      | none => rfl
      | some cid =>
        dsimp only
        split
        · rfl
        · cases stopMapGet stops cid <;> rfl

theorem head_append_of_ne_nil {α : Type} (l1 l2 : List α) (h : l1 ≠ []) :
    (l1 ++ l2).head? = l1.head? := by
  cases l1 with
  | nil => exact absurd rfl h
  | cons x xs => rfl

theorem optimizeRoute_route_eq (m : TravelMatrix) (req : OptimizeRequest)
    (hne : req.stops ≠ []) :
    (optimizeRoute m req).optimizedRoute =
      (runConstruction m req.stops (req.startTime.getD "08:00")).route.map
        toOptimizedStop := by
  unfold optimizeRoute
  rw [if_neg (fun h => hne (List.length_eq_zero.mp h))]
  dsimp only
  rw [applyReturnHome_route]

/-! ### Permutation and order invariants of the loop -/

/-- The multiset of scheduled ids plus unvisited ids is constant, and the
unvisited set stays duplicate-free. -/
def PermInv (ids0 : List String) (s : LoopState) : Prop :=
  ((s.route.map ScheduledStop.id) ++ s.unvisited).Perm ids0 ∧ s.unvisited.Nodup

theorem stepRecord_id (m : TravelMatrix) (stops : List Stop) (s : LoopState)
    (h : stepChosen m stops s ∈ stops.map Stop.id) :
    (stepRecord m stops s).id = stepChosen m stops s := by
  show (stepStop m stops s).id = stepChosen m stops s
  unfold stepStop
  rcases stopMapGet_isSome h with ⟨sf, hsf⟩
  rw [hsf]
  exact stopMapGet_id hsf

theorem stepOnce_PermInv (m : TravelMatrix) (stops : List Stop) (s : LoopState)
    (hne : s.unvisited ≠ []) (h : PermInv (stops.map Stop.id) s) :
    PermInv (stops.map Stop.id) (stepOnce m stops s) := by
  obtain ⟨hperm, hnd⟩ := h
  have hcmem : stepChosen m stops s ∈ s.unvisited := stepChosen_mem m stops s hne
  have hcid0 : stepChosen m stops s ∈ stops.map Stop.id :=
    hperm.mem_iff.mp (List.mem_append.mpr (Or.inr hcmem))
  constructor
  · rw [stepOnce_route, stepOnce_unvisited, List.map_append]
    have hmapc : [stepRecord m stops s].map ScheduledStop.id = [stepChosen m stops s] := by
      simp [stepRecord_id m stops s hcid0]
    rw [hmapc, List.append_assoc]
    refine List.Perm.trans ?_ hperm
    exact List.Perm.append_left _ (cons_filter_ne_perm hcmem hnd)
  · rw [stepOnce_unvisited]
    exact hnd.filter _

/-- Orders are exactly the 1-based list positions. -/
def OrderInv (s : LoopState) : Prop :=
  ∀ k (hk : k < s.route.length), (s.route.get ⟨k, hk⟩).order = k + 1

theorem stepOnce_OrderInv (m : TravelMatrix) (stops : List Stop) (s : LoopState)
    (h : OrderInv s) : OrderInv (stepOnce m stops s) := by
  intro k hk
  rw [stepOnce_route] at hk
  have hklen : k < s.route.length + 1 := by simpa using hk
  show ((s.route ++ [stepRecord m stops s]).get ⟨k, by simpa using hk⟩).order = k + 1
  by_cases hlt : k < s.route.length
  · rw [List.get_append k hlt]
    exact h k hlt
  · have hkeq : k = s.route.length := by omega
    subst hkeq
    have hrec : (s.route ++ [stepRecord m stops s]).get
        ⟨s.route.length, by simpa using hk⟩ = stepRecord m stops s := by
      rw [List.get_eq_getElem]
      exact List.getElem_concat_length _ _ _ rfl _
    rw [hrec]
    rfl

/-! ### Facts about the finished construction -/

theorem runConstruction_PermInv (m : TravelMatrix) (stops : List Stop)
    (startTime : String) (hnd : (stops.map Stop.id).Nodup) :
    PermInv (stops.map Stop.id) (runConstruction m stops startTime) := by
  unfold runConstruction
  refine runLoop_preserves m stops _ (fun s hne2 h => stepOnce_PermInv m stops s hne2 h) _ _ ?_
  constructor
  · show (([] : List ScheduledStop).map ScheduledStop.id ++
        dedupFirst (stops.map Stop.id)).Perm (stops.map Stop.id)
    rw [dedupFirst_eq_self hnd]
    simp
  · show (dedupFirst (stops.map Stop.id)).Nodup
    exact dedupFirst_nodup _

theorem runConstruction_OrderInv (m : TravelMatrix) (stops : List Stop)
    (startTime : String) : OrderInv (runConstruction m stops startTime) := by
  unfold runConstruction
  refine runLoop_preserves m stops _ (fun s _ h => stepOnce_OrderInv m stops s h) _ _ ?_
  intro k hk
  simp [initialState] at hk

theorem runConstruction_unvisited_nil (m : TravelMatrix) (stops : List Stop)
    (startTime : String) : (runConstruction m stops startTime).unvisited = [] := by
  unfold runConstruction
  exact runLoop_complete m stops _ _ (Nat.le_refl _)

theorem runConstruction_ids_perm (m : TravelMatrix) (stops : List Stop)
    (startTime : String) (hnd : (stops.map Stop.id).Nodup) :
    ((runConstruction m stops startTime).route.map ScheduledStop.id).Perm
      (stops.map Stop.id) := by
  have h := (runConstruction_PermInv m stops startTime hnd).1
  rw [runConstruction_unvisited_nil m stops startTime] at h
  simpa using h

/-! ### Concrete fixtures used by witnesses and scenario checks -/

/-- The everywhere-missing travel matrix. -/
def mNone : TravelMatrix := fun _ _ => none

/-- A plain stop with no window, no explicit duration, no priority. -/
def wStopA : Stop :=
  { id := "a", name := "A", lat := 0, lng := 0,
    timeWindow := none, duration := none, priority := none }

/-- Single-stop request with every optional field absent. -/
def wReqA : OptimizeRequest :=
  { stops := [wStopA], startTime := none, startLocation := none,
    homeBase := none, returnHome := none }

/-! ### Claim theorems -/

/-- C1: for every request whose stop list is non-empty and has
pairwise-distinct ids, the optimizedRoute returned by optimizeRoute
contains each input stop id exactly once (its ids are a permutation of
the input ids), and the `order` field of the stop at 1-based list
position k equals k, forming a contiguous 1..N sequence. -/
theorem optimizeRoute_ids_perm_and_order (m : TravelMatrix) (req : OptimizeRequest)
    (hne : req.stops ≠ []) (hnd : (req.stops.map Stop.id).Nodup) :
    ((optimizeRoute m req).optimizedRoute.map OptimizedStop.id).Perm
      (req.stops.map Stop.id) ∧
    ∀ k (hk : k < (optimizeRoute m req).optimizedRoute.length),
      ((optimizeRoute m req).optimizedRoute.get ⟨k, hk⟩).order = k + 1 := by
  have hroute := optimizeRoute_route_eq m req hne
  constructor
  · rw [hroute, List.map_map]
    have hcomp : OptimizedStop.id ∘ toOptimizedStop = ScheduledStop.id := rfl
    rw [hcomp]
    exact runConstruction_ids_perm m req.stops _ hnd
  · intro k hk
    have hord := runConstruction_OrderInv m req.stops (req.startTime.getD "08:00")
    have hk2 : k < (runConstruction m req.stops (req.startTime.getD "08:00")).route.length := by
      rw [hroute] at hk
      simpa using hk
    have hget := List.get_of_eq hroute ⟨k, hk⟩
    rw [hget, List.get_eq_getElem, List.getElem_map]
    exact hord k hk2

/-- Witness for C1 at a concrete single-stop request. -/
theorem optimizeRoute_ids_perm_and_order_witness :
    ((optimizeRoute mNone wReqA).optimizedRoute.map OptimizedStop.id).Perm ["a"] := by
  have h := optimizeRoute_ids_perm_and_order mNone wReqA
    (by simp [wReqA]) (by simp [wReqA, wStopA])
  exact h.1

/-- C2: isFeasible case analysis — no window is always feasible with zero
wait; arrival strictly after close is infeasible (and exactly then);
arrival before open waits `open − arrival`; arrival inside the window
(including exactly at close) is feasible with zero wait. -/
theorem isFeasible_cases (stop : Stop) (t : Int) :
    (stop.timeWindow = none →
      isFeasible stop t = { feasible := true, waitTime := 0 }) ∧
    (∀ tw, stop.timeWindow = some tw →
      (timeToMinutes tw.closeT < t →
        isFeasible stop t = { feasible := false, waitTime := 0 }) ∧
      (t ≤ timeToMinutes tw.closeT → t < timeToMinutes tw.openT →
        isFeasible stop t =
          { feasible := true, waitTime := timeToMinutes tw.openT - t }) ∧
      (timeToMinutes tw.openT ≤ t → t ≤ timeToMinutes tw.closeT →
        isFeasible stop t = { feasible := true, waitTime := 0 })) ∧
    ((isFeasible stop t).feasible = false ↔
      ∃ tw, stop.timeWindow = some tw ∧ timeToMinutes tw.closeT < t) := by
  refine ⟨?_, ?_, ?_⟩
  · intro h
    unfold isFeasible
    rw [h]
  · intro tw h
    refine ⟨?_, ?_, ?_⟩
    · intro hlt
      unfold isFeasible
      rw [h]
      dsimp only
      rw [if_pos (by omega)]
    · intro hle hopen
      unfold isFeasible
      rw [h]
      dsimp only
      rw [if_neg (by omega)]
      simp only [Feasibility.mk.injEq, true_and]
      rw [if_pos (by omega)]
    · intro hopen hle
      unfold isFeasible
      rw [h]
      dsimp only
      rw [if_neg (by omega)]
      simp only [Feasibility.mk.injEq, true_and]
      rw [if_neg (by omega)]
  · unfold isFeasible
    cases htw : stop.timeWindow with
    | none => simp
    | some tw =>
      dsimp only
      constructor
      · intro hfeas
        refine ⟨tw, rfl, ?_⟩
        by_contra hnot
        rw [if_neg (by omega)] at hfeas
        simp at hfeas
      · rintro ⟨tw2, heq, hlt⟩
        injection heq with h3
        subst h3
        rw [if_pos (by omega)]

/-- Witness for C2: all four cases exercised at concrete stops/times. -/
theorem isFeasible_cases_witness :
    isFeasible wStopA 480 = { feasible := true, waitTime := 0 } := by
  have h := isFeasible_cases wStopA 480
  exact h.1 rfl

/-- C8: a request with an empty stop list returns immediately with the
all-zero feasible response, `estimatedEndTime` equal to the (defaulted)
request start time and no warnings; the result does not depend on the
travel matrix at all (no matrix is built, no Travel Estimator call is
made). -/
theorem empty_request_response (m m2 : TravelMatrix) (req : OptimizeRequest)
    (h : req.stops = []) :
    optimizeRoute m req =
      { optimizedRoute := [], totalDuration := 0, totalDistance := 0,
        totalDriveTime := 0, totalServiceTime := 0,
        estimatedEndTime := req.startTime.getD "08:00", feasible := true,
        warnings := none, returnToHomeTime := none } ∧
    optimizeRoute m req = optimizeRoute m2 req := by
  have hlen : req.stops.length = 0 := by rw [h]; rfl
  constructor
  · unfold optimizeRoute
    rw [if_pos hlen]
  · unfold optimizeRoute
    rw [if_pos hlen, if_pos hlen]

/-- Zero-stop request with an explicit start time. -/
def wReqEmpty : OptimizeRequest :=
  { stops := [], startTime := some "07:15", startLocation := none,
    homeBase := none, returnHome := none }

/-- Witness for C8 at the concrete empty request. -/
theorem empty_request_response_witness :
    optimizeRoute mNone wReqEmpty =
      { optimizedRoute := [], totalDuration := 0, totalDistance := 0,
        totalDriveTime := 0, totalServiceTime := 0,
        estimatedEndTime := "07:15", feasible := true,
        warnings := none, returnToHomeTime := none } :=
  (empty_request_response mNone mNone wReqEmpty rfl).1

/-- C10: a travel-matrix entry with duration exactly 0 is treated like a
missing entry — the 30-minute default is substituted (and a distance of 0
contributes 0, like a missing entry); consequently the travel time used
for a leg is never 0. -/
theorem zero_duration_entry_defaults (m : TravelMatrix) (a b : String)
    (e : MatrixEntry) (hm : m a b = some e) (hd : e.duration = 0)
    (hdist : e.distance = 0) :
    matrixDuration m a b = 30 ∧
    matrixDuration m a b = matrixDuration mNone a b ∧
    matrixDistance m a b = 0 ∧
    ∀ (m2 : TravelMatrix) (a2 b2 : String), matrixDuration m2 a2 b2 ≠ 0 := by
  refine ⟨?_, ?_, ?_, fun m2 a2 b2 => matrixDuration_never_zero m2 a2 b2⟩
  · simp [matrixDuration, hm, hd]
  · simp [matrixDuration, hm, hd, mNone]
  · simp [matrixDistance, hm, hdist]

/-- A matrix holding a single zero-duration, zero-distance entry. -/
def mZero : TravelMatrix := fun a b =>
  if a = "p" ∧ b = "q" then some { duration := 0, distance := 0 } else none

/-- Witness for C10 at the concrete zero entry. -/
theorem zero_duration_entry_defaults_witness :
    matrixDuration mZero "p" "q" = 30 :=
  (zero_duration_entry_defaults mZero "p" "q" { duration := 0, distance := 0 }
    (by simp [mZero]) rfl rfl).1

/-- Scenario B stop X: window 08:00–09:00, default priority. -/
def stopX : Stop :=
  { id := "X", name := "X", lat := 0, lng := 0,
    timeWindow := some { openT := "08:00", closeT := "09:00" },
    duration := none, priority := none }

/-- Scenario B stop Y: no window, priority high. -/
def stopY : Stop :=
  { id := "Y", name := "Y", lat := 0, lng := 0,
    timeWindow := none, duration := none, priority := some Priority.high }

/-- Scenario B travel matrix: X↔Y takes 20 minutes in both directions
(no self-entries, as `buildTravelMatrix` never creates them). -/
def matrixB : TravelMatrix := fun a b =>
  if a = "X" ∧ b = "Y" then some { duration := 20, distance := 0 }
  else if a = "Y" ∧ b = "X" then some { duration := 20, distance := 0 }
  else none

/-- Scenario B request, stops listed as [X, Y]. -/
def reqB : OptimizeRequest :=
  { stops := [stopX, stopY], startTime := some "08:00", startLocation := none,
    homeBase := none, returnHome := none }

/-- Scenario B request, stops listed as [Y, X]. -/
def reqBrev : OptimizeRequest :=
  { stops := [stopY, stopX], startTime := some "08:00", startLocation := none,
    homeBase := none, returnHome := none }

/-- C6: in the Scenario B configuration (X closes at 09:00 with default
priority, Y has no window and high priority, X↔Y travel is 20 minutes,
start 08:00), optimizeRoute visits X before Y — whichever way the two
stops are listed in the request. -/
theorem scenarioB_visits_X_before_Y :
    (optimizeRoute matrixB reqB).optimizedRoute.map OptimizedStop.id = ["X", "Y"] ∧
    (optimizeRoute matrixB reqBrev).optimizedRoute.map OptimizedStop.id = ["X", "Y"] :=
  ⟨by decide, by decide⟩

/-- The literal reading of claim C4: the 50-point urgency bonus would
condition on the slack at the wait-adjusted arrival
`currentTime + travelTime + waitTime`. -/
def waitAdjustedUrgencyClaim : Prop :=
  ∀ (stop : Stop) (travelTime currentTime : Int) (rem : List Stop) (tw : TimeWindow),
    stop.timeWindow = some tw →
    (isFeasible stop (currentTime + travelTime)).feasible = true →
    scoreCandidate stop travelTime currentTime rem =
      some (-(travelTime + (isFeasible stop (currentTime + travelTime)).waitTime +
        (if timeToMinutes tw.closeT -
            (currentTime + travelTime +
              (isFeasible stop (currentTime + travelTime)).waitTime) < 60
          then (-50 : Int) else 0) -
        getPriorityWeight stop.priority * 30))

/-- A stop whose window (10:00–10:30) opens long after an 08:00 arrival:
the wait-adjusted slack is 30 minutes (< 60) but the source computes the
slack at the pre-wait arrival (150 minutes) and does not apply the
bonus. -/
def stopC4 : Stop :=
  { id := "c", name := "C", lat := 0, lng := 0,
    timeWindow := some { openT := "10:00", closeT := "10:30" },
    duration := none, priority := none }

/-- Counterexample for C4: at `stopC4`, travel 0, current time 480, the
score is −60 (no bonus) although the slack at the wait-adjusted arrival
is 30 < 60 minutes, so the wait-adjusted reading of the urgency rule is
false. -/
theorem scoreCandidate_waitAdjusted_false : ¬ waitAdjustedUrgencyClaim := by
  intro h
  have hc := h stopC4 0 480 [] { openT := "10:00", closeT := "10:30" } rfl (by decide)
  revert hc
  decide

/-- C4 (amended): for a feasible candidate with a time window the
50-point bonus applies exactly when the slack before close measured at
the pre-wait arrival `currentTime + travelTime` is under 60 minutes. -/
theorem scoreCandidate_urgency_slack (stop : Stop) (travelTime currentTime : Int)
    (rem : List Stop) (tw : TimeWindow) (htw : stop.timeWindow = some tw)
    (hf : (isFeasible stop (currentTime + travelTime)).feasible = true) :
    scoreCandidate stop travelTime currentTime rem =
      some (-(travelTime + (isFeasible stop (currentTime + travelTime)).waitTime +
        (if timeToMinutes tw.closeT - (currentTime + travelTime) < 60
          then (-50 : Int) else 0) -
        getPriorityWeight stop.priority * 30)) := by
  unfold scoreCandidate
  dsimp only
  rw [if_neg (by rw [hf]; simp), htw]
  dsimp only
  by_cases hs : timeToMinutes tw.closeT - (currentTime + travelTime) < 60
  · rw [if_pos hs, if_pos hs]
    all_goals simp only [Option.some.injEq]
    all_goals omega
  · rw [if_neg hs, if_neg hs]
    all_goals simp only [Option.some.injEq]
    all_goals omega

/-- A stop with a wide window (08:00–17:00) used to instantiate the
amended urgency rule. -/
def stopC4w : Stop :=
  { id := "w", name := "W", lat := 0, lng := 0,
    timeWindow := some { openT := "08:00", closeT := "17:00" },
    duration := none, priority := none }

/-- Witness for the amended C4 at a concrete feasible stop. -/
theorem scoreCandidate_urgency_slack_witness :
    scoreCandidate stopC4w 10 480 [] =
      some (-(10 + (isFeasible stopC4w (480 + 10)).waitTime +
        (if timeToMinutes ({ openT := "08:00", closeT := "17:00" } : TimeWindow).closeT -
            (480 + 10) < 60
          then (-50 : Int) else 0) -
        getPriorityWeight stopC4w.priority * 30)) :=
  scoreCandidate_urgency_slack stopC4w 10 480 []
    { openT := "08:00", closeT := "17:00" } rfl (by decide)

/-! ### The first scheduled stop -/

theorem runLoop_route_head (m : TravelMatrix) (stops : List Stop) :
    ∀ n s, s.route ≠ [] → (runLoop m stops n s).route.head? = s.route.head? := by
  intro n
  induction n with
  | zero => intro s _; rfl
  | succ k ih =>
    intro s h
    unfold runLoop
    split
    · rfl
    · rw [ih _ (by simp [stepOnce_route])]
      rw [stepOnce_route]
      exact head_append_of_ne_nil _ _ h

theorem runConstruction_head_unforced (m : TravelMatrix) (stops : List Stop)
    (startTime : String) (hne : stops ≠ [])
    (hnf : forcedFirstId stops (timeToMinutes startTime) = none) :
    ∀ x, (runConstruction m stops startTime).route.head? = some x →
      x.travelTimeFromPrevious = 0 := by
  intro x hx
  have hu : (initialState stops startTime).unvisited ≠ [] := by
    show dedupFirst (stops.map Stop.id) ≠ []
    exact dedupFirst_ne_nil (by simpa using hne)
  obtain ⟨u0, us, huv⟩ : ∃ a l, (initialState stops startTime).unvisited = a :: l := by
    cases h : (initialState stops startTime).unvisited with
    | nil => exact absurd h hu
    | cons a l => exact ⟨a, l, rfl⟩
  unfold runConstruction at hx
  dsimp only at hx
  rw [huv] at hx
  simp only [List.length_cons] at hx
  unfold runLoop at hx
  rw [if_neg hu] at hx
  rw [runLoop_route_head m stops us.length _ (by simp [stepOnce_route])] at hx
  rw [stepOnce_route] at hx
  have hroute0 : (initialState stops startTime).route = [] := rfl
  rw [hroute0] at hx
  simp only [List.nil_append, List.head?_cons, Option.some.injEq] at hx
  subst hx
  show stepTravelTime m stops (initialState stops startTime) = 0
  have hcid : (initialState stops startTime).currentId = none := hnf
  unfold stepTravelTime
  rw [hcid]

/-- The single high-priority stop of the C5 counterexample. -/
def stopHigh : Stop :=
  { id := "h", name := "H", lat := 0, lng := 0,
    timeWindow := none, duration := none, priority := some Priority.high }

/-- Request with the single high-priority stop. -/
def reqC5 : OptimizeRequest :=
  { stops := [stopHigh], startTime := none, startLocation := none,
    homeBase := none, returnHome := none }

/-- Counterexample for C5: a single high-priority stop triggers the
forced-first-stop rule, so `currentId` is already set when the first
iteration runs and the first leg uses the matrix/default travel time —
here the missing self-pair lookup yields the 30-minute default, not 0. -/
theorem forced_first_nonzero_travel :
    (optimizeRoute mNone reqC5).optimizedRoute.map
      (fun s => s.travelTimeFromPrevious) = [30] := by
  decide

/-- C5 (amended): the first stop of the returned route has
`travelTimeFromPrevious = 0` whenever the forced-first-stop rule does not
fire; when it fires, the first leg's travel time comes from the travel
matrix seeded at the forced stop (30 by default for a missing pair, as
for the self-pair), and is in general nonzero. -/
theorem first_stop_zero_travel_unforced (m : TravelMatrix) (req : OptimizeRequest)
    (hne : req.stops ≠ [])
    (hnf : forcedFirstId req.stops (timeToMinutes (req.startTime.getD "08:00")) = none) :
    ∀ x, (optimizeRoute m req).optimizedRoute.head? = some x →
      x.travelTimeFromPrevious = 0 := by
  intro x hx
  rw [optimizeRoute_route_eq m req hne] at hx
  rw [List.head?_map] at hx
  cases hr : (runConstruction m req.stops (req.startTime.getD "08:00")).route.head? with
  | none => rw [hr] at hx; cases hx
  | some y =>
    rw [hr] at hx
    have hy := runConstruction_head_unforced m req.stops (req.startTime.getD "08:00")
      hne hnf y hr
    have hxy : x = toOptimizedStop y := by
      simpa using hx.symm
    subst hxy
    exact hy

/-- Placeholder used only as the `headD` default of the C5 witness. -/
def dummyOptimizedStop : OptimizedStop :=
  { id := "", name := "", order := 0, arrivalTime := "", departureTime := "",
    waitTime := none, travelTimeFromPrevious := 0 }

/-- Witness for the amended C5: one plain stop (no priority, no window),
so the forced-first rule does not fire and the first leg is 0. -/
theorem first_stop_zero_travel_unforced_witness :
    ((optimizeRoute mNone wReqA).optimizedRoute.headD
      dummyOptimizedStop).travelTimeFromPrevious = 0 := by
  have h := first_stop_zero_travel_unforced mNone wReqA (by simp [wReqA]) (by decide)
  cases hh : (optimizeRoute mNone wReqA).optimizedRoute with
  | nil => rfl
  | cons a l =>
    have ha := h a (by rw [hh]; rfl)
    simpa [hh] using ha

/-! ### Counting and default-travel invariants (C7) -/

/-- The number of scheduled plus unvisited stops is constant and the
unvisited set stays duplicate-free. -/
def CountInv (N : Nat) (s : LoopState) : Prop :=
  s.route.length + s.unvisited.length = N ∧ s.unvisited.Nodup

theorem stepOnce_CountInv (m : TravelMatrix) (stops : List Stop) (N : Nat)
    (s : LoopState) (hne : s.unvisited ≠ []) (h : CountInv N s) :
    CountInv N (stepOnce m stops s) := by
  obtain ⟨hlen, hnd⟩ := h
  have hcmem := stepChosen_mem m stops s hne
  have hperm := cons_filter_ne_perm hcmem hnd
  have hfl : (s.unvisited.filter
      (fun x => x ≠ stepChosen m stops s)).length + 1 = s.unvisited.length := by
    have hl := hperm.length_eq
    simp only [List.length_cons] at hl
    omega
  constructor
  · rw [stepOnce_route, stepOnce_unvisited]
    simp only [List.length_append, List.length_singleton]
    omega
  · rw [stepOnce_unvisited]
    exact hnd.filter _

theorem runConstruction_route_length (m : TravelMatrix) (stops : List Stop)
    (startTime : String) :
    (runConstruction m stops startTime).route.length =
      (dedupFirst (stops.map Stop.id)).length := by
  have hinit : CountInv (dedupFirst (stops.map Stop.id)).length
      (initialState stops startTime) := by
    constructor
    · show ([] : List ScheduledStop).length + (dedupFirst (stops.map Stop.id)).length = _
      simp
    · exact dedupFirst_nodup _
  have hfin : CountInv (dedupFirst (stops.map Stop.id)).length
      (runConstruction m stops startTime) := by
    unfold runConstruction
    exact runLoop_preserves m stops _
      (fun s hne h => stepOnce_CountInv m stops _ s hne h) _ _ hinit
  have hempty := runConstruction_unvisited_nil m stops startTime
  have h1 := hfin.1
  rw [hempty] at h1
  simpa using h1

/-- Every scheduled leg so far used travel 0 (no current position) or the
30-minute default. -/
def TravelInv (s : LoopState) : Prop :=
  ∀ r ∈ s.route, r.travelTimeFromPrevious = 0 ∨ r.travelTimeFromPrevious = 30

theorem stepOnce_TravelInv (m : TravelMatrix) (stops : List Stop) (s : LoopState)
    (hm : ∀ a b, m a b = none) (h : TravelInv s) : TravelInv (stepOnce m stops s) := by
  intro r hr
  rw [stepOnce_route] at hr
  rcases List.mem_append.mp hr with hr2 | hr2
  · exact h r hr2
  · have hrr : r = stepRecord m stops s := by simpa using hr2
    subst hrr
    show stepTravelTime m stops s = 0 ∨ stepTravelTime m stops s = 30
    exact stepTravelTime_default m stops s hm

theorem runConstruction_TravelInv (m : TravelMatrix) (stops : List Stop)
    (startTime : String) (hm : ∀ a b, m a b = none) :
    TravelInv (runConstruction m stops startTime) := by
  unfold runConstruction
  refine runLoop_preserves m stops _
    (fun s _ h => stepOnce_TravelInv m stops s hm h) _ _ ?_
  intro r hr
  simp [initialState] at hr

/-- C7: with a travel matrix that lacks every lookup, route construction
still completes — every requested (distinct) stop is scheduled — and
every leg uses either zero travel (first pick with no current position)
or the 30-minute default; `matrixDuration` is 30 for every missing
pair. -/
theorem missing_matrix_defaults_thirty (m : TravelMatrix) (req : OptimizeRequest)
    (hm : ∀ a b, m a b = none) (hne : req.stops ≠ []) :
    (∀ a b, matrixDuration m a b = 30) ∧
    (∀ os ∈ (optimizeRoute m req).optimizedRoute,
      os.travelTimeFromPrevious = 0 ∨ os.travelTimeFromPrevious = 30) ∧
    (optimizeRoute m req).optimizedRoute.length =
      (dedupFirst (req.stops.map Stop.id)).length := by
  refine ⟨fun a b => matrixDuration_of_none m (hm a b), ?_, ?_⟩
  · intro os hos
    rw [optimizeRoute_route_eq m req hne] at hos
    rcases List.mem_map.mp hos with ⟨r, hr, heq⟩
    have htr := runConstruction_TravelInv m req.stops (req.startTime.getD "08:00") hm r hr
    rw [← heq]
    exact htr
  · rw [optimizeRoute_route_eq m req hne]
    simp only [List.length_map]
    exact runConstruction_route_length m req.stops (req.startTime.getD "08:00")

/-- Witness for C7 at the single-stop request with the empty matrix. -/
theorem missing_matrix_defaults_thirty_witness :
    matrixDuration mNone "x" "y" = 30 ∧
    (optimizeRoute mNone wReqA).optimizedRoute.length = 1 := by
  have h := missing_matrix_defaults_thirty mNone wReqA
    (fun _ _ => rfl) (by simp [wReqA])
  exact ⟨h.1 "x" "y", h.2.2⟩

/-! ### Clock monotonicity (C3) -/

/-- Consecutive scheduled stops have non-decreasing clocks and the last
departure is at most the running clock. -/
def ClockInv (s : LoopState) : Prop :=
  List.Chain' (fun a b => a.departureMin ≤ b.arrivalMin) s.route ∧
  ∀ x, s.route.getLast? = some x → x.departureMin ≤ s.currentTime

theorem stepOnce_ClockInv (m : TravelMatrix) (stops : List Stop) (s : LoopState)
    (hm : ∀ a b e, m a b = some e → 0 ≤ e.duration)
    (h : ClockInv s) : ClockInv (stepOnce m stops s) := by
  obtain ⟨hchain, hlast⟩ := h
  have htr := stepTravelTime_nonneg m stops s hm
  have hw := stepWait_nonneg m stops s
  have harr : s.currentTime ≤ stepActualArrival m stops s := by
    unfold stepActualArrival stepArrival
    omega
  constructor
  · rw [stepOnce_route, List.chain'_append]
    refine ⟨hchain, List.chain'_singleton _, ?_⟩
    intro x hx y hy
    have hy2 : stepRecord m stops s = y := by simpa using hy
    subst hy2
    have hxd := hlast x (by simpa using hx)
    show x.departureMin ≤ stepActualArrival m stops s
    omega
  · intro x hx
    rw [stepOnce_route, List.getLast?_concat] at hx
    have hxr : x = stepRecord m stops s := by simpa using hx.symm
    subst hxr
    rw [stepOnce_currentTime]
    exact le_refl _

theorem runConstruction_ClockInv (m : TravelMatrix) (stops : List Stop)
    (startTime : String) (hm : ∀ a b e, m a b = some e → 0 ≤ e.duration) :
    ClockInv (runConstruction m stops startTime) := by
  unfold runConstruction
  refine runLoop_preserves m stops _
    (fun s _ h => stepOnce_ClockInv m stops s hm h) _ _ ?_
  constructor
  · show List.Chain' _ ([] : List ScheduledStop)
    exact List.chain'_nil
  · intro x hx
    simp [initialState] at hx

/-- C3: given non-negative travel-matrix durations and stop service
durations, the unwrapped arrival clock of stop i+1 is at least the
unwrapped departure clock of stop i for every consecutive pair of the
constructed route (whose display-formatted image is exactly the returned
optimizedRoute). -/
theorem route_clock_monotone (m : TravelMatrix) (req : OptimizeRequest)
    (hm : ∀ a b e, m a b = some e → 0 ≤ e.duration)
    (hd : ∀ s, s ∈ req.stops → ∀ d, s.duration = some d → 0 ≤ d)
    (hne : req.stops ≠ []) :
    (optimizeRoute m req).optimizedRoute =
      (runConstruction m req.stops (req.startTime.getD "08:00")).route.map
        toOptimizedStop ∧
    ∀ i (hi : i + 1 <
        (runConstruction m req.stops (req.startTime.getD "08:00")).route.length),
      ((runConstruction m req.stops (req.startTime.getD "08:00")).route.get
        ⟨i, by omega⟩).departureMin ≤
      ((runConstruction m req.stops (req.startTime.getD "08:00")).route.get
        ⟨i + 1, hi⟩).arrivalMin := by
  refine ⟨optimizeRoute_route_eq m req hne, ?_⟩
  intro i hi
  have hchain := (runConstruction_ClockInv m req.stops
    (req.startTime.getD "08:00") hm).1
  rw [List.chain'_iff_get] at hchain
  exact hchain i (by omega)

/-- Witness for C3: the empty matrix has (vacuously) non-negative
durations, as does the one-stop request with no explicit durations. -/
theorem route_clock_monotone_witness :
    (optimizeRoute mNone wReqA).optimizedRoute =
      (runConstruction mNone wReqA.stops "08:00").route.map toOptimizedStop := by
  have h := route_clock_monotone mNone wReqA
    (fun a b e he => by simp [mNone] at he)
    (fun s hs d hd => by
      simp [wReqA] at hs
      rw [hs] at hd
      simp [wStopA] at hd)
    (by simp [wReqA])
  exact h.1

/-! ### The haversine fallback (C9) -/

/-- The spec's wording of the fallback distance (§4.1): great-circle
distance via the haversine formula on a sphere of radius 6371 km, as a
pure function of the two coordinate pairs. -/
noncomputable def specHaversineKm (lat1 lng1 lat2 lng2 : ℝ) : ℝ :=
  let R : ℝ := 6371
  let dLat : ℝ := (lat2 - lat1) * Real.pi / 180
  let dLng : ℝ := (lng2 - lng1) * Real.pi / 180
  let a : ℝ := Real.sin (dLat / 2) ^ 2 +
    Real.cos (lat1 * Real.pi / 180) * Real.cos (lat2 * Real.pi / 180) *
      Real.sin (dLng / 2) ^ 2
  let c : ℝ := 2 * jsAtan2 (Real.sqrt a) (Real.sqrt (1 - a))
  R * c

/-- The spec's wording of the fallback duration: the great-circle
distance converted to minutes at a fixed 50 km/h and rounded to the
nearest minute. -/
noncomputable def specFallbackMinutes (lat1 lng1 lat2 lng2 : ℝ) : Int :=
  round (specHaversineKm lat1 lng1 lat2 lng2 / 50 * 60)

/-- C9: the Travel Estimator's geometric fallback equals the spec's
haversine-at-50km/h-rounded formula, and it is a pure function of the two
coordinate pairs (identical coordinates give identical results). -/
theorem estimateDistance_haversine_spec (f t : Stop) :
    estimateDistance f t =
      specFallbackMinutes (f.lat : ℝ) (f.lng : ℝ) (t.lat : ℝ) (t.lng : ℝ) ∧
    ∀ f2 t2 : Stop, f.lat = f2.lat → f.lng = f2.lng → t.lat = t2.lat →
      t.lng = t2.lng → estimateDistance f t = estimateDistance f2 t2 := by
  constructor
  · rfl
  · intro f2 t2 h1 h2 h3 h4
    unfold estimateDistance
    rw [h1, h2, h3, h4]

/-- Witness for C9 at a concrete coordinate pair. -/
theorem estimateDistance_haversine_spec_witness :
    estimateDistance wStopA wStopA =
      specFallbackMinutes (wStopA.lat : ℝ) (wStopA.lng : ℝ)
        (wStopA.lat : ℝ) (wStopA.lng : ℝ) ∧
    estimateDistance wStopA wStopA = estimateDistance wStopA wStopA := by
  have h := estimateDistance_haversine_spec wStopA wStopA
  exact ⟨h.1, h.2 wStopA wStopA rfl rfl rfl rfl⟩

end Snailtrail
